import Mathlib

/-! Shallow embedding of FRUIT.py (FRUITPy): a Python front end that scans
Fortran test sources, generates a FRUIT driver program, builds and runs it,
and parses the resulting output. The source is Python 2. Python strings are
modelled as Lean strings viewed through their character lists (Python 2
`str.lower` is a bytewise, length-preserving map); an open file is modelled
as the list of its remaining lines, where `readline` past end-of-file yields
`""`; a raised exception is modelled as `none`, and a loop that can fail to
terminate is modelled with explicit fuel. Each definition carries a pointer
to the lines of src/FRUIT.py it embeds. -/

/-- Python `str.lower` on one character (bytewise ASCII lowering, as in
Python 2). -/
def lowerChar (c : Char) : Char :=
  if 'A' ≤ c ∧ c ≤ 'Z' then Char.ofNat (c.toNat + 32) else c

/-- Python `str.lower`. -/
def pyLower (s : String) : String := String.mk (s.toList.map lowerChar)

/-- The characters Python `str.strip()` and `str.split()` treat as
whitespace. -/
def pyIsSpace (c : Char) : Bool :=
  c == ' ' || c == '\t' || c == '\n' || c == '\r' || c == '\x0b' || c == '\x0c'

/-- Python `str.strip()`: remove leading and trailing whitespace. -/
def pyStrip (s : String) : String :=
  String.mk (((s.toList.dropWhile pyIsSpace).reverse.dropWhile pyIsSpace).reverse)

/-- Python `str.find`: index of the first occurrence of `pat` in `l`
(`none` models Python's `-1`). -/
def findSub : List Char → List Char → Option Nat
  | [], pat => if pat.isPrefixOf [] then some 0 else none
  | c :: t, pat =>
    if pat.isPrefixOf (c :: t) then some 0 else (findSub t pat).map (· + 1)

/-- Python `str.find` on strings. -/
def strFind (s pat : String) : Option Nat := findSub s.toList pat.toList

/-- Python's `pat in s` substring test. -/
def strContains (s pat : String) : Bool := (strFind s pat).isSome

/-- Python `str.startswith`. -/
def strStartsWith (s pat : String) : Bool := pat.toList.isPrefixOf s.toList

/-- Worker for Python `str.split()` (split on whitespace runs, no empty
tokens); `acc` holds the characters of the current token, reversed. -/
def pySplitAux : List Char → List Char → List String
  | [], acc => if acc.isEmpty then [] else [String.mk acc.reverse]
  | c :: cs, acc =>
    if pyIsSpace c then
      if acc.isEmpty then pySplitAux cs []
      else String.mk acc.reverse :: pySplitAux cs []
    else pySplitAux cs (c :: acc)

/-- Python `str.split()` with no arguments. -/
def pySplit (s : String) : List String := pySplitAux s.toList []

/-- Python `list.index` (first index of `x`; `none` models the raised
`ValueError` when `x` is absent). -/
def indexOfAux (x : String) : List String → Option Nat
  | [] => none
  | y :: ys => if y = x then some 0 else (indexOfAux x ys).map (· + 1)

/-- Python `items[::-1].index(x)`: first index of `x` in the reversed
list. -/
def revIndex (items : List String) (x : String) : Option Nat :=
  indexOfAux x items.reverse

/-- Python list indexing `l[i]` with negative-index wraparound; `none`
models a raised `IndexError`. -/
def pyGet {α : Type} (l : List α) (i : Int) : Option α :=
  if 0 ≤ i then l[i.toNat]?
  else if (-i).toNat ≤ l.length then l[l.length - (-i).toNat]? else none

/-- Value of a nonempty all-digit string (helper for Python `int`). -/
def digitsVal (l : List Char) : Option Nat :=
  if l = [] then none
  else if l.all (fun c => c.isDigit) then
    some (l.foldl (fun n c => 10 * n + (c.toNat - '0'.toNat)) 0)
  else none

/-- Python `int(s)` on a string: optional surrounding whitespace, optional
sign, digits; `none` models the raised `ValueError`. -/
def pyInt (s : String) : Option Int :=
  match (pyStrip s).toList with
  | '+' :: ds => (digitsVal ds).map (fun n => (n : Int))
  | '-' :: ds => (digitsVal ds).map (fun n => -(n : Int))
  | ds => (digitsVal ds).map (fun n => (n : Int))

/-- Outcome of the module-name scanning loop of
`test_module.parse_test_module_name` (src/FRUIT.py, lines 52-57):
`found` carries the parsed name and the unread lines, `error` models the
`IndexError` raised by `line[imod:].strip().split()[1]` when the name token
is missing, `running` means the given fuel was exhausted with the loop
still running. -/
inductive ScanOutcome
  | found (name : String) (rest : List String)
  | error
  | running
deriving DecidableEq

/-- Lines 56-57 of src/FRUIT.py: `imod = line.find('module')` (note: a
case-sensitive find, while the enclosing loop tested
`'module' in line.lower()`), then
`line[imod:].strip().split()[1]`. When `find` returns `-1` the slice
`line[-1:]` is the last character of the line; a missing second token
(`[1]`, an `IndexError`) is `none`. -/
def extract_module_name (line : String) : Option String :=
  match strFind line "module" with
  | some i => (pySplit (pyStrip (String.mk (line.toList.drop i))))[1]?
  | none => (pySplit (pyStrip (String.mk (line.toList.drop (line.toList.length - 1)))))[1]?

/-- Modelled from the spec's words (claim C2): the module name is the
whitespace-delimited token immediately following the first case-insensitive
occurrence of the substring `module` in the line. For comparison with
`extract_module_name`, which embeds the code. -/
def spec_module_name (line : String) : Option String :=
  match strFind (pyLower line) "module" with
  | some i => (pySplit (String.mk (line.toList.drop i)))[1]?
  | none => none

/-- The `readline` loop of `test_module.parse_test_module_name`
(src/FRUIT.py, lines 54-57): read lines until one contains `module`
case-insensitively, then extract the module name. Past end-of-file
`readline` returns `""`, which never contains `module`, so the Python loop
spins forever; the fuel argument makes that observable as `running`. -/
def moduleNameLoop : Nat → List String → ScanOutcome
  | 0, _ => ScanOutcome.running
  | fuel + 1, lines =>
    match lines with
    | [] => moduleNameLoop fuel []
    | l :: rest =>
      if strContains (pyLower l) "module" then
        match extract_module_name l with
        | some nm => ScanOutcome.found nm rest
        | none => ScanOutcome.error
      else moduleNameLoop fuel rest

/-- `test_subroutine` (src/FRUIT.py, lines 27-32). -/
structure test_subroutine where
  name : String
  description : String
deriving DecidableEq

/-- The mutable state `test_module.parse_subroutines` accumulates
(src/FRUIT.py, lines 90-93): the setup/teardown flags and the test-case
list. -/
structure ModuleState where
  setup : Bool
  teardown : Bool
  subroutines : List test_subroutine
deriving DecidableEq

/-- `test_module.subroutine_type` (src/FRUIT.py, lines 59-67). -/
def subroutine_type (name : String) : Option String :=
  if pyLower name = "setup" then some "setup"
  else if pyLower name = "teardown" then some "teardown"
  else if strStartsWith (pyLower name) "test_" then some "test"
  else none

/-- The acceptance guard of `test_module.parse_subroutine` (src/FRUIT.py,
lines 71-73): with `isub = line.lower().find('subroutine')` and
`pre = line[:isub]`, the line counts as a declaration iff
`'!' not in pre and 'end' not in pre.lower()`. -/
def subroutine_line_accepted (line : String) : Bool :=
  match strFind (pyLower line) "subroutine" with
  | none => false
  | some isub =>
    !(strContains (String.mk (line.toList.take isub)) "!") &&
      !(strContains (pyLower (String.mk (line.toList.take isub))) "end")

/-- Name extraction of `test_module.parse_subroutine` (src/FRUIT.py, lines
74-76): `subname = line[isub:].strip().split()[1]`, truncated at the first
`(` when present; `none` models the `IndexError` when the token is
missing. -/
def extracted_subroutine_name (line : String) : Option String :=
  match strFind (pyLower line) "subroutine" with
  | none => none
  | some isub =>
    ((pySplit (pyStrip (String.mk (line.toList.drop isub))))[1]?).map
      (fun t =>
        match strFind t "(" with
        | some b => String.mk (t.toList.take b)
        | none => t)

/-- Description lookup of `test_module.parse_subroutine` (src/FRUIT.py,
lines 79-83): skip blank lines, then take the trimmed text after the first
`!` of the next non-blank line, defaulting to the subroutine name. The
blank-skipping `readline` loop spins forever at end-of-file (a blank `""`
is read again and again), modelled as `none`. -/
def test_case_description (subname : String) (rest : List String) : Option String :=
  match rest.dropWhile (fun l => pyStrip l == "") with
  | [] => none
  | l :: _ =>
    some (match strFind l "!" with
      | some p => pyStrip (String.mk (l.toList.drop (p + 1)))
      | none => subname)

/-- `test_module.parse_subroutine` (src/FRUIT.py, lines 69-88) acting on
the accumulated state and the unread lines; returns the new state and the
unread lines after it (the description scan consumes lines). -/
def parse_subroutine (st : ModuleState) (rest : List String) (line : String) :
    Option (ModuleState × List String) :=
  if subroutine_line_accepted line then
    match extracted_subroutine_name line with
    | none => none
    | some subname =>
      if subroutine_type subname = some "test" then
        match test_case_description subname rest with
        | none => none
        | some d =>
          some ({ st with subroutines := st.subroutines ++ [⟨subname, d⟩] },
            (rest.dropWhile (fun l => pyStrip l == "")).tail)
      else if subroutine_type subname = some "setup" then
        some ({ st with setup := true }, rest)
      else if subroutine_type subname = some "teardown" then
        some ({ st with teardown := true }, rest)
      else some (st, rest)
  else some (st, rest)

/-- The `readline` loop of `test_module.parse_subroutines` (src/FRUIT.py,
lines 94-97). Each iteration consumes at least one line, so fuel equal to
the number of remaining lines suffices; the `(0, _ :: _)` case is
unreachable from `parse_subroutines`. -/
def parse_subroutinesLoop : Nat → List String → ModuleState → Option ModuleState
  | _, [], st => some st
  | 0, _ :: _, _ => none
  | fuel + 1, l :: ls, st =>
    if strContains (pyLower l) "subroutine" then
      match parse_subroutine st ls l with
      | none => none
      | some (st', ls') => parse_subroutinesLoop fuel ls' st'
    else parse_subroutinesLoop fuel ls st

/-- `test_module.parse_subroutines` (src/FRUIT.py, lines 90-97). -/
def parse_subroutines (lines : List String) : Option ModuleState :=
  parse_subroutinesLoop lines.length lines ⟨false, false, []⟩

/-- The data a parsed `test_module` holds (src/FRUIT.py, lines 34-97). -/
structure TestModuleData where
  test_filename : String
  test_module_name : String
  setup : Bool
  teardown : Bool
  subroutines : List test_subroutine
deriving DecidableEq

/-- `test_module.parse` (src/FRUIT.py, lines 45-50) on a file given as its
list of lines; `none` models an exception or a non-terminating scan. -/
def test_module_parse (filename : String) (contents : List String) :
    Option TestModuleData :=
  match moduleNameLoop (contents.length + 1) contents with
  | ScanOutcome.found nm rest =>
    match parse_subroutines rest with
    | some st => some ⟨filename, nm, st.setup, st.teardown, st.subroutines⟩
    | none => none
  | _ => none

/-- `test_result` (src/FRUIT.py, lines 99-103). -/
structure ResultCounter where
  success : Int
  total : Int
deriving DecidableEq

/-- Python float division `float(a) / float(b)`; `none` models the
`ZeroDivisionError` Python raises even for float operands. Rational
arithmetic stands in for IEEE doubles: the claims concern the dividing
formula and the zero guard, not rounding. -/
def pyDivFloat (a b : Int) : Option ℚ :=
  if b = 0 then none else some ((a : ℚ) / (b : ℚ))

/-- `test_result.get_percent` (src/FRUIT.py, lines 108-113): the `try`
block divides, the `except ZeroDivisionError` handler returns `0.0`. -/
def get_percent (r : ResultCounter) : ℚ :=
  match pyDivFloat r.success r.total with
  | some q => q * 100
  | none => 0

/-- The `test_filenames` argument of `test_suite.__init__`: a single
string or a list of strings (src/FRUIT.py, line 121). -/
inductive StrOrList
  | str (s : String)
  | list (l : List String)

/-- The fields `test_suite.__init__` sets (src/FRUIT.py, lines 119-128). -/
structure TestSuiteData where
  test_filenames : List String
  test_modules : List TestModuleData
  driver : Option String
  exe : Option String
  asserts : ResultCounter
  cases : ResultCounter
deriving DecidableEq

/-- `test_suite.parse` (src/FRUIT.py, lines 145-149): parse each file in
order; `fsys` maps a filename to the lines of that file. An exception or
hang in any module parse aborts construction (`none`). -/
def parse_modules (fsys : String → List String) : List String → Option (List TestModuleData)
  | [] => some []
  | fn :: fns =>
    match test_module_parse fn (fsys fn) with
    | some m => (parse_modules fsys fns).map (fun ms => m :: ms)
    | none => none

/-- `test_suite.__init__` (src/FRUIT.py, lines 119-128): wrap a lone
string into a one-element list, record the filenames, parse all modules,
zero the counters. -/
def test_suite_init (test_filenames : StrOrList) (fsys : String → List String) :
    Option TestSuiteData :=
  match parse_modules fsys
      (match test_filenames with
       | StrOrList.str s => [s]
       | StrOrList.list l => l) with
  | some ms =>
    some ⟨(match test_filenames with
           | StrOrList.str s => [s]
           | StrOrList.list l => l), ms, none, none, ⟨0, 0⟩, ⟨0, 0⟩⟩
  | none => none

/-- `test_suite.num_test_modules` (src/FRUIT.py, lines 133-135). -/
def num_test_modules (s : TestSuiteData) : Nat := s.test_modules.length

/-- Total number of test cases across all modules of a suite. -/
def totalTestCases (s : TestSuiteData) : Nat :=
  (s.test_modules.map (fun m => m.subroutines.length)).sum

/-- Abstraction of the external world `test_suite.build_run` touches: does
the build command leave an executable behind, and does the executed suite
report success. -/
structure BuildRunEnv where
  buildSucceeds : Bool
  runReturns : Bool

/-- The externally visible actions of `test_suite.build_run`. -/
inductive PipelineEffect
  | write
  | build
  | run
deriving DecidableEq

/-- `test_suite.build_run` (src/FRUIT.py, lines 296-305): guarded by
`num_test_modules > 0`, it writes the driver, builds, and runs when the
build succeeded. Returns the Python return value together with the list of
performed external actions. -/
def build_run (s : TestSuiteData) (env : BuildRunEnv) : Bool × List PipelineEffect :=
  if 0 < num_test_modules s then
    if env.buildSucceeds then
      (env.runReturns, [PipelineEffect.write, PipelineEffect.build, PipelineEffect.run])
    else (false, [PipelineEffect.write, PipelineEffect.build])
  else (false, [])

/-- The statistics header line marker (src/FRUIT.py, line 279). -/
def statsHeader : String := "Successful asserts / total asserts"

/-- The failure-message block start marker (src/FRUIT.py, line 262). -/
def msgsHeader : String := "Failed assertion messages:"

/-- The failure-message block end marker (src/FRUIT.py, line 265). -/
def msgsEnd : String := "end of failed assertion messages."

/-- `test_suite.get_success` (src/FRUIT.py, lines 253-255). -/
def get_success (lines : List String) : Bool :=
  lines.any (fun l => strContains l "SUCCESSFUL!")

/-- The inner collection loop of `test_suite.get_messages` (src/FRUIT.py,
lines 263-266): gather stripped lines until the end marker. -/
def get_messagesAux : List String → List String
  | [] => []
  | l :: ls =>
    if strContains l msgsEnd then []
    else pyStrip l :: get_messagesAux ls

/-- The outer scan of `test_suite.get_messages` (src/FRUIT.py, lines
261-267): find the first header line, collect the block after it, then
stop scanning entirely. -/
def get_messagesScan : List String → List String
  | [] => []
  | l :: ls =>
    if strContains l msgsHeader then get_messagesAux ls
    else get_messagesScan ls

/-- `test_suite.get_messages` (src/FRUIT.py, lines 257-267). -/
def get_messages (success : Bool) (lines : List String) : List String :=
  if success then [] else get_messagesScan lines

/-- `test_suite.parse_summary_line` (src/FRUIT.py, lines 269-274):
`items = line.split()`, `slashpos = -(items[::-1].index('/') + 1)`,
then `int(items[slashpos - 1]), int(items[slashpos + 1])` with Python's
negative indexing; `none` models the `ValueError`/`IndexError` paths. -/
def parse_summary_line (line : String) : Option (Int × Int) :=
  match revIndex (pySplit line) "/" with
  | none => none
  | some r =>
    match pyGet (pySplit line) (-((r : Int) + 1) - 1),
        pyGet (pySplit line) (-((r : Int) + 1) + 1) with
    | some a, some b =>
      match pyInt a, pyInt b with
      | some xa, some xb => some (xa, xb)
      | _, _ => none
    | _, _ => none

/-- The loop of `test_suite.get_statistics` (src/FRUIT.py, lines 276-283):
every line containing the header reparses the counters from that line and
the immediately following one (`lines[i + 1]`, an `IndexError`, hence
`none`, when the header is last). -/
def get_statisticsAux : List String → ResultCounter × ResultCounter →
    Option (ResultCounter × ResultCounter)
  | [], acc => some acc
  | l :: ls, acc =>
    if strContains l statsHeader then
      match ls with
      | [] => none
      | nxt :: _ =>
        match parse_summary_line l, parse_summary_line nxt with
        | some a, some c => get_statisticsAux ls (⟨a.1, a.2⟩, ⟨c.1, c.2⟩)
        | _, _ => none
    else get_statisticsAux ls acc

/-- `test_suite.get_statistics` (src/FRUIT.py, lines 276-283), starting
from the zero-initialized counters of `__init__`. -/
def get_statistics (lines : List String) : Option (ResultCounter × ResultCounter) :=
  get_statisticsAux lines (⟨0, 0⟩, ⟨0, 0⟩)

/-! ### Library lemmas about the string primitives -/

lemma isPrefixOfIff (l₁ l₂ : List Char) : l₁.isPrefixOf l₂ = true ↔ l₁ <+: l₂ :=
  List.isPrefixOf_iff_prefix

lemma findSub_isSome (pat l : List Char) :
    (findSub l pat).isSome = true ↔ pat <:+: l := by
  induction l with
  | nil =>
    constructor
    · intro h
      simp only [findSub] at h
      split at h
      · next hp =>
        obtain ⟨t, ht⟩ := (isPrefixOfIff _ _).mp hp
        exact ⟨[], t, by simpa using ht⟩
      · simp at h
    · intro h
      rw [List.infix_nil] at h
      subst h
      simp [findSub, List.isPrefixOf]
  | cons c t ih =>
    constructor
    · intro h
      simp only [findSub] at h
      split at h
      · next hp =>
        obtain ⟨u, hu⟩ := (isPrefixOfIff _ _).mp hp
        exact ⟨[], u, by simpa using hu⟩
      · next hp =>
        have h' : (findSub t pat).isSome = true := by
          cases hf : findSub t pat with
          | none => rw [hf] at h; simp at h
          | some b => rfl
        obtain ⟨s, u, hsu⟩ := ih.mp h'
        exact ⟨c :: s, u, by simp [← hsu]⟩
    · intro h
      simp only [findSub]
      split
      · rfl
      · next hp =>
        rcases List.infix_cons_iff.mp h with h1 | h1
        · exact absurd ((isPrefixOfIff _ _).mpr h1) (by simp [hp])
        · have h' := ih.mpr h1
          cases hf : findSub t pat with
          | none => rw [hf] at h'; simp at h'
          | some b => rfl

lemma strContains_iff (s pat : String) :
    strContains s pat = true ↔ pat.toList <:+: s.toList := by
  unfold strContains strFind
  exact findSub_isSome _ _

lemma singletonInf (a : Char) (l : List Char) : [a] <:+: l ↔ a ∈ l := by
  constructor
  · rintro ⟨s, t, rfl⟩
    simp
  · intro h
    obtain ⟨s, t, rfl⟩ := List.append_of_mem h
    exact ⟨s, t, by simp⟩

lemma findSub_single_take (c : Char) (l : List Char) :
    (match findSub l [c] with
     | some b => l.take b
     | none => l) = l.takeWhile (fun x => x != c) := by
  induction l with
  | nil => rfl
  | cons x xs ih =>
    by_cases hx : x = c
    · subst hx
      have hp : ([x]).isPrefixOf (x :: xs) = true := by simp [List.isPrefixOf]
      simp [findSub, hp, List.takeWhile_cons]
    · have hp : ([c]).isPrefixOf (x :: xs) = false := by
        simp [List.isPrefixOf]
        exact fun hcx => absurd hcx.symm hx
      cases hfs : findSub xs [c] with
      | none =>
        rw [hfs] at ih
        simp only [findSub, hp, hfs, Bool.false_eq_true, if_false, Option.map_none']
        simp only [List.takeWhile_cons]
        have : (x != c) = true := by simp [hx]
        rw [this]
        simp only [if_true]
        rw [← ih]
      | some b =>
        rw [hfs] at ih
        simp only [findSub, hp, hfs, Bool.false_eq_true, if_false, Option.map_some']
        simp only [List.takeWhile_cons]
        have : (x != c) = true := by simp [hx]
        rw [this]
        simp only [if_true, List.take_succ_cons]
        rw [← ih]

lemma findSub_single_mem (c : Char) (l : List Char) (h : c ∈ l) :
    findSub l [c] = some ((l.takeWhile (fun x => x != c)).length) := by
  induction l with
  | nil => cases h
  | cons x xs ih =>
    by_cases hx : x = c
    · subst hx
      have hp : ([x]).isPrefixOf (x :: xs) = true := by simp [List.isPrefixOf]
      simp [findSub, hp, List.takeWhile_cons]
    · have hmem : c ∈ xs := by
        rcases List.mem_cons.mp h with h1 | h1
        · exact absurd h1.symm hx
        · exact h1
      have hp : ([c]).isPrefixOf (x :: xs) = false := by
        simp [List.isPrefixOf]
        exact fun hcx => absurd hcx.symm hx
      have hxc : (x != c) = true := by simp [hx]
      simp [findSub, hp, ih hmem, List.takeWhile_cons, hxc]

lemma findSub_single_not_mem (c : Char) (l : List Char) (h : c ∉ l) :
    findSub l [c] = none := by
  induction l with
  | nil => rfl
  | cons x xs ih =>
    have hx : ¬(x = c) := fun hcontra => h (by simp [hcontra])
    have hp : ([c]).isPrefixOf (x :: xs) = false := by
      simp [List.isPrefixOf]
      exact fun hcx => absurd hcx.symm hx
    have : c ∉ xs := fun hm => h (by simp [hm])
    simp [findSub, hp, ih this]

lemma drop_takeWhile_succ (p : Char → Bool) (l : List Char) :
    l.drop ((l.takeWhile p).length + 1) = (l.dropWhile p).tail := by
  have key : ∀ (t d : List Char), (t ++ d).drop (t.length + 1) = d.tail := by
    intro t d
    rw [← List.drop_drop, List.drop_left, List.drop_one]
  have h := key (l.takeWhile p) (l.dropWhile p)
  rwa [List.takeWhile_append_dropWhile] at h

lemma pySplitAux_all_space (l : List Char) (h : ∀ c ∈ l, pyIsSpace c = true) :
    ∀ acc, pySplitAux l acc = if acc.isEmpty then [] else [String.mk acc.reverse] := by
  induction l with
  | nil => intro acc; rfl
  | cons c cs ih =>
    intro acc
    have hc : pyIsSpace c = true := h c (by simp)
    have ih0 := ih (fun x hx => h x (by simp [hx])) []
    by_cases ha : acc.isEmpty
    · simp [pySplitAux, hc, ha, ih0]
    · simp [pySplitAux, hc, ha, ih0]

lemma pySplitAux_append_space (sp : List Char) (hsp : ∀ c ∈ sp, pyIsSpace c = true) :
    ∀ (l : List Char) (acc : List Char), pySplitAux (l ++ sp) acc = pySplitAux l acc := by
  intro l
  induction l with
  | nil =>
    intro acc
    rw [List.nil_append, pySplitAux_all_space sp hsp acc]
    rfl
  | cons c cs ih =>
    intro acc
    by_cases hc : pyIsSpace c
    · by_cases ha : acc.isEmpty <;> simp [pySplitAux, hc, ha, ih]
    · simp [pySplitAux, hc, ih]

lemma pySplitAux_dropWhile_space (l : List Char) :
    pySplitAux (l.dropWhile pyIsSpace) [] = pySplitAux l [] := by
  induction l with
  | nil => rfl
  | cons c cs ih =>
    by_cases hc : pyIsSpace c
    · rw [List.dropWhile_cons_of_pos hc, ih]
      simp [pySplitAux, hc]
    · rw [List.dropWhile_cons_of_neg hc]

lemma pySplit_strip (s : String) : pySplit (pyStrip s) = pySplit s := by
  show pySplitAux (((s.toList.dropWhile pyIsSpace).reverse.dropWhile pyIsSpace).reverse) [] =
    pySplitAux s.toList []
  have hsp : ∀ c ∈ ((s.toList.dropWhile pyIsSpace).reverse.takeWhile pyIsSpace).reverse,
      pyIsSpace c = true := by
    intro c hc
    rw [List.mem_reverse] at hc
    exact List.mem_takeWhile_imp hc
  have hsplit : ((s.toList.dropWhile pyIsSpace).reverse.dropWhile pyIsSpace).reverse ++
      ((s.toList.dropWhile pyIsSpace).reverse.takeWhile pyIsSpace).reverse =
      s.toList.dropWhile pyIsSpace := by
    rw [← List.reverse_append, List.takeWhile_append_dropWhile, List.reverse_reverse]
  calc pySplitAux (((s.toList.dropWhile pyIsSpace).reverse.dropWhile pyIsSpace).reverse) []
      = pySplitAux (((s.toList.dropWhile pyIsSpace).reverse.dropWhile pyIsSpace).reverse ++
          ((s.toList.dropWhile pyIsSpace).reverse.takeWhile pyIsSpace).reverse) [] :=
        (pySplitAux_append_space _ hsp _ _).symm
    _ = pySplitAux (s.toList.dropWhile pyIsSpace) [] := by rw [hsplit]
    _ = pySplitAux s.toList [] := pySplitAux_dropWhile_space s.toList

lemma indexOfAux_append (x : String) (l₁ l₂ : List String) (h : x ∉ l₁) :
    indexOfAux x (l₁ ++ x :: l₂) = some l₁.length := by
  induction l₁ with
  | nil => simp [indexOfAux]
  | cons y ys ih =>
    have hy : ¬(y = x) := fun hcontra => h (by simp [hcontra])
    rw [List.cons_append]
    simp only [indexOfAux, if_neg hy]
    rw [ih (fun hm => h (by simp [hm]))]
    rfl

lemma pyGet_negNat {α : Type} (l : List α) (n : Nat) (h1 : 0 < n) (h2 : n ≤ l.length) :
    pyGet l (-(n : Int)) = l[l.length - n]? := by
  unfold pyGet
  rw [if_neg (by omega), if_pos (by simp; omega)]
  congr 1
  simp

/-! ### Lemmas about the embedded scanner and result parser -/

lemma moduleNameLoop_no_module : ∀ (fuel : Nat) (lines : List String),
    (∀ l ∈ lines, strContains (pyLower l) "module" = false) →
    moduleNameLoop fuel lines = ScanOutcome.running := by
  intro fuel
  induction fuel with
  | zero => intro lines _; rfl
  | succ f ih =>
    intro lines h
    cases lines with
    | nil =>
      show moduleNameLoop f [] = ScanOutcome.running
      exact ih [] (by simp)
    | cons l rest =>
      have hl := h l (by simp)
      show (if strContains (pyLower l) "module" = true then _ else moduleNameLoop f rest) =
        ScanOutcome.running
      rw [hl]
      simp only [Bool.false_eq_true, if_false]
      exact ih rest (fun x hx => h x (by simp [hx]))

lemma subroutine_type_of_test (n : String)
    (h : strStartsWith (pyLower n) "test_" = true) :
    subroutine_type n = some "test" := by
  have h1 : ¬(pyLower n = "setup") := by
    intro hc; rw [hc] at h; exact absurd h (by decide)
  have h2 : ¬(pyLower n = "teardown") := by
    intro hc; rw [hc] at h; exact absurd h (by decide)
  simp [subroutine_type, h1, h2, h]

lemma description_ite (l : String) (n : String) :
    (match strFind l "!" with
     | some p => pyStrip (String.mk (l.toList.drop (p + 1)))
     | none => n) =
    if '!' ∈ l.toList
    then pyStrip (String.mk ((l.toList.dropWhile (fun c => c != '!')).tail))
    else n := by
  by_cases h : '!' ∈ l.toList
  · have hf : strFind l "!" = some ((l.toList.takeWhile (fun x => x != '!')).length) :=
      findSub_single_mem '!' l.toList h
    rw [hf, if_pos h]
    show pyStrip (String.mk (l.toList.drop
        ((l.toList.takeWhile (fun x => x != '!')).length + 1))) = _
    rw [drop_takeWhile_succ]
  · have hf : strFind l "!" = none := findSub_single_not_mem '!' l.toList h
    rw [hf, if_neg h]

lemma get_statisticsAux_no_header (ls : List String) (acc : ResultCounter × ResultCounter)
    (h : ∀ l ∈ ls, strContains l statsHeader = false) :
    get_statisticsAux ls acc = some acc := by
  induction ls with
  | nil => rfl
  | cons l t ih =>
    have hl : strContains l statsHeader = false := h l (by simp)
    show (if strContains l statsHeader = true then _ else get_statisticsAux t acc) = some acc
    rw [hl]
    simp only [Bool.false_eq_true, if_false]
    exact ih (fun x hx => h x (by simp [hx]))

lemma get_statisticsAux_skip (pre : List String)
    (h : ∀ l ∈ pre, strContains l statsHeader = false) :
    ∀ (ls : List String) (acc : ResultCounter × ResultCounter),
      get_statisticsAux (pre ++ ls) acc = get_statisticsAux ls acc := by
  induction pre with
  | nil => intro ls acc; rfl
  | cons p ps ih =>
    intro ls acc
    have hp : strContains p statsHeader = false := h p (by simp)
    rw [List.cons_append]
    show (if strContains p statsHeader = true then _ else get_statisticsAux (ps ++ ls) acc) =
      get_statisticsAux ls acc
    rw [hp]
    simp only [Bool.false_eq_true, if_false]
    exact ih (fun x hx => h x (by simp [hx])) ls acc

lemma get_messagesAux_block (body : List String) (el : String) (post : List String)
    (hb : ∀ l ∈ body, strContains l msgsEnd = false)
    (he : strContains el msgsEnd = true) :
    get_messagesAux (body ++ el :: post) = body.map pyStrip := by
  induction body with
  | nil =>
    show (if strContains el msgsEnd = true then [] else _) = []
    rw [he]
    simp
  | cons b bs ih =>
    have hbb : strContains b msgsEnd = false := hb b (by simp)
    rw [List.cons_append]
    show (if strContains b msgsEnd = true then [] else pyStrip b :: get_messagesAux (bs ++ el :: post)) =
      (b :: bs).map pyStrip
    rw [hbb]
    simp only [Bool.false_eq_true, if_false, List.map_cons]
    rw [ih (fun x hx => hb x (by simp [hx]))]

lemma get_messagesScan_skip (pre : List String)
    (h : ∀ l ∈ pre, strContains l msgsHeader = false) :
    ∀ ls : List String, get_messagesScan (pre ++ ls) = get_messagesScan ls := by
  induction pre with
  | nil => intro ls; rfl
  | cons p ps ih =>
    intro ls
    have hp : strContains p msgsHeader = false := h p (by simp)
    rw [List.cons_append]
    show (if strContains p msgsHeader = true then _ else get_messagesScan (ps ++ ls)) =
      get_messagesScan ls
    rw [hp]
    simp only [Bool.false_eq_true, if_false]
    exact ih (fun x hx => h x (by simp [hx])) ls

/-! ### Claim theorems -/

/-- Claim C9: for all non-negative integers success and total, the result
counter's percent equals 0 when total = 0 and success/total*100 otherwise;
the division-by-zero path is caught and never escapes. -/
theorem c9_theorem (s t : Int) (hs : 0 ≤ s) (ht : 0 ≤ t) :
    (t = 0 → get_percent ⟨s, t⟩ = 0) ∧
    (t ≠ 0 → get_percent ⟨s, t⟩ = (s : ℚ) / (t : ℚ) * 100) := by
  constructor
  · intro h
    simp [get_percent, pyDivFloat, h]
  · intro h
    simp [get_percent, pyDivFloat, h]

/-- Witness for C9 at (success, total) = (3, 0) and (9, 10). -/
theorem c9_witness :
    get_percent ⟨3, 0⟩ = 0 ∧ get_percent ⟨9, 10⟩ = (9 : ℚ) / (10 : ℚ) * 100 :=
  ⟨(c9_theorem 3 0 (by decide) (by decide)).1 rfl,
    (c9_theorem 9 10 (by decide) (by decide)).2 (by decide)⟩

/-- Claim C10: constructing a test suite from a single string path is
accepted and behaves identically to constructing it from the one-element
list containing that path: the resulting suites are equal, so every
observable field coincides. -/
theorem c10_theorem : ∀ (s : String) (fsys : String → List String),
    test_suite_init (StrOrList.str s) fsys = test_suite_init (StrOrList.list [s]) fsys :=
  fun _ _ => rfl

/-- A concrete suite with one module and zero test cases, as
`test_suite.__init__` produces it from a file whose only line is
`module foo` (used by the C1 counterexample). -/
def c1Suite : TestSuiteData :=
  ⟨["f.f90"], [⟨"f.f90", "foo", false, false, []⟩], none, none, ⟨0, 0⟩, ⟨0, 0⟩⟩

/-- Claim C1 counterexample: a suite parsed from one module file with zero
test cases has `num_test_modules = 1 > 0`, so `build_run` writes the
driver, invokes the build command and, the build having succeeded, runs
the executable — returning that run's result (here `true`) rather than
returning false without invoking build or run. -/
theorem c1_counterexample :
    test_suite_init (StrOrList.list ["f.f90"]) (fun _ => ["module foo"]) = some c1Suite ∧
    totalTestCases c1Suite = 0 ∧
    build_run c1Suite ⟨true, true⟩ =
      (true, [PipelineEffect.write, PipelineEffect.build, PipelineEffect.run]) := by
  refine ⟨by decide, by decide, by decide⟩

/-- Claim C1 (amended): `build_run` returns false without writing the
driver, invoking the build command or running the executable exactly for
suites with zero test *modules*; the guard on src/FRUIT.py line 302 tests
`num_test_modules > 0`, not the test-case count. -/
theorem c1_theorem (s : TestSuiteData) (env : BuildRunEnv)
    (h : s.test_modules = []) : build_run s env = (false, []) := by
  simp [build_run, num_test_modules, h]

/-- Witness for the amended C1 at the empty suite. -/
theorem c1_witness :
    build_run ⟨[], [], none, none, ⟨0, 0⟩, ⟨0, 0⟩⟩ ⟨true, true⟩ = (false, []) :=
  c1_theorem ⟨[], [], none, none, ⟨0, 0⟩, ⟨0, 0⟩⟩ ⟨true, true⟩ rfl

/-- Claim C2: for the valid module line `MODULE foo_test` the scanner's
loop accepts the line (case-insensitive containment test) but
`line.find('module')` is case-sensitive, returns -1, and
`line[-1:].strip().split()[1]` raises IndexError — modelled as
`ScanOutcome.error` — whereas the claim's reading (the token after the
first case-insensitive occurrence of `module`) yields `foo_test`. -/
theorem c2_theorem :
    moduleNameLoop 5 ["MODULE foo_test"] = ScanOutcome.error ∧
    spec_module_name "MODULE foo_test" = some "foo_test" := by
  refine ⟨by decide, by decide⟩

/-- Claim C3: on a file none of whose lines contain `module`, the scanning
loop of `parse_test_module_name` is still running after any number of
iterations — at end-of-file `readline` returns `""` forever, so the loop
never terminates and never raises anything (no ParseError exists in the
code). -/
theorem c3_theorem : ∀ fuel : Nat,
    moduleNameLoop fuel ["subroutine test_a", "end"] = ScanOutcome.running :=
  fun fuel => moduleNameLoop_no_module fuel ["subroutine test_a", "end"] (by decide)

/-- Claim C4: for an accepted subroutine declaration with extracted name n,
a case-insensitive `test_` prefix appends a test case carrying exactly that
name; a name that is case-insensitively `setup` or `teardown` sets the
corresponding flag and never touches the test-case list; any other name
leaves the state unchanged. -/
theorem c4_theorem (st : ModuleState) (rest : List String) (line n d : String)
    (hacc : subroutine_line_accepted line = true)
    (hname : extracted_subroutine_name line = some n)
    (hd : test_case_description n rest = some d) :
    (strStartsWith (pyLower n) "test_" = true →
      parse_subroutine st rest line =
        some ({ st with subroutines := st.subroutines ++ [⟨n, d⟩] },
          (rest.dropWhile (fun l => pyStrip l == "")).tail)) ∧
    (pyLower n = "setup" →
      parse_subroutine st rest line = some ({ st with setup := true }, rest)) ∧
    (pyLower n = "teardown" →
      parse_subroutine st rest line = some ({ st with teardown := true }, rest)) ∧
    (strStartsWith (pyLower n) "test_" = false → pyLower n ≠ "setup" →
      pyLower n ≠ "teardown" →
      parse_subroutine st rest line = some (st, rest)) := by
  refine ⟨?_, ?_, ?_, ?_⟩
  · intro ht
    simp only [parse_subroutine, hacc, if_true, hname, subroutine_type_of_test n ht, hd]
  · intro hs
    have h1 : subroutine_type n = some "setup" := by simp [subroutine_type, hs]
    simp only [parse_subroutine, hacc, if_true, hname, h1]
    simp
  · intro hs
    have h0 : ¬(pyLower n = "setup") := by rw [hs]; decide
    have h1 : subroutine_type n = some "teardown" := by simp [subroutine_type, h0, hs]
    simp only [parse_subroutine, hacc, if_true, hname, h1]
    simp
  · intro h1 h2 h3
    have h4 : subroutine_type n = none := by simp [subroutine_type, h1, h2, h3]
    simp only [parse_subroutine, hacc, if_true, hname, h4]
    simp

/-- Witness for C4: a test subroutine is appended with its name and parsed
description, and a Setup subroutine sets only the setup flag. -/
theorem c4_witness :
    parse_subroutine ⟨false, false, []⟩ ["", "! checks alpha"] "subroutine test_alpha()" =
      some (⟨false, false, [⟨"test_alpha", "checks alpha"⟩]⟩, []) ∧
    parse_subroutine ⟨false, false, []⟩ ["x"] "subroutine Setup" =
      some (⟨true, false, []⟩, ["x"]) := by
  constructor
  · exact ((c4_theorem ⟨false, false, []⟩ ["", "! checks alpha"] "subroutine test_alpha()"
      "test_alpha" "checks alpha" (by decide) (by decide) (by decide)).1 (by decide)).trans
      (by decide)
  · exact ((c4_theorem ⟨false, false, []⟩ ["x"] "subroutine Setup"
      "Setup" "Setup" (by decide) (by decide) (by decide)).2.1 (by decide)).trans
      (by decide)

/-- Claim C5: with isub the position of the first case-insensitive
occurrence of `subroutine`, the line is rejected iff the text before that
position contains a `!` character or the substring `end` (on its lowered
form); an accepted line's extracted name is the second whitespace token of
the line from that position, truncated at the first `(`. -/
theorem c5_theorem (line : String) (isub : Nat)
    (hsub : strFind (pyLower line) "subroutine" = some isub) :
    (subroutine_line_accepted line = false ↔
      '!' ∈ line.toList.take isub ∨
        ("end".toList) <:+: (pyLower (String.mk (line.toList.take isub))).toList) ∧
    (subroutine_line_accepted line = true →
      extracted_subroutine_name line =
        ((pySplit (String.mk (line.toList.drop isub)))[1]?).map
          (fun t => String.mk (t.toList.takeWhile (fun c => c != '(')))) := by
  constructor
  · show ((match strFind (pyLower line) "subroutine" with
      | none => false
      | some isub =>
        !(strContains (String.mk (line.toList.take isub)) "!") &&
          !(strContains (pyLower (String.mk (line.toList.take isub))) "end")) = false) ↔ _
    rw [hsub]
    rw [show ∀ a b : Bool, ((!a && !b) = false ↔ a = true ∨ b = true) from by decide]
    constructor
    · rintro (h | h)
      · left
        rw [show ("!" : String) = String.mk ['!'] from rfl] at h
        have := (strContains_iff _ _).mp h
        exact (singletonInf '!' _).mp this
      · right
        exact (strContains_iff _ _).mp h
    · rintro (h | h)
      · left
        rw [show ("!" : String) = String.mk ['!'] from rfl]
        exact (strContains_iff _ _).mpr ((singletonInf '!' _).mpr h)
      · right
        exact (strContains_iff _ _).mpr h
  · intro _
    show (match strFind (pyLower line) "subroutine" with
      | none => none
      | some isub =>
        ((pySplit (pyStrip (String.mk (line.toList.drop isub))))[1]?).map
          (fun t =>
            match strFind t "(" with
            | some b => String.mk (t.toList.take b)
            | none => t)) = _
    rw [hsub]
    show ((pySplit (pyStrip (String.mk (line.toList.drop isub))))[1]?).map
        (fun t =>
          match strFind t "(" with
          | some b => String.mk (t.toList.take b)
          | none => t) = _
    rw [pySplit_strip]
    cases hgt : (pySplit (String.mk (line.toList.drop isub)))[1]? with
    | none => rfl
    | some t =>
      simp only [Option.map_some']
      congr 1
      cases hft : strFind t "(" with
      | none =>
        have h3 := findSub_single_take '(' t.toList
        rw [show findSub t.toList ['('] = none from hft] at h3
        have h4 : t.toList = t.toList.takeWhile (fun x => x != '(') := h3
        show t = String.mk (t.toList.takeWhile (fun c => c != '('))
        rw [← h4]
        rfl
      | some b =>
        have h3 := findSub_single_take '(' t.toList
        rw [show findSub t.toList ['('] = some b from hft] at h3
        have h4 : t.toList.take b = t.toList.takeWhile (fun x => x != '(') := h3
        show String.mk (t.toList.take b) = String.mk (t.toList.takeWhile (fun c => c != '('))
        rw [h4]

/-- Witness for C5: an `end subroutine` line is rejected, and an accepted
declaration with a glued parameter list yields the truncated name. -/
theorem c5_witness :
    subroutine_line_accepted "end subroutine foo" = false ∧
    extracted_subroutine_name "subroutine test_gamma(x)" = some "test_gamma" := by
  constructor
  · exact ( c5_theorem "end subroutine foo" 4 (by decide)).1.mpr (by decide)
  · exact (( c5_theorem "subroutine test_gamma(x)" 0 (by decide)).2 (by decide)).trans
      (by decide)

/-- Claim C6: for a subroutine classified as a test case the scanner skips
blank lines to the next non-blank line; if that line contains a `!` the
description is the trimmed text after the first `!`, otherwise it is the
subroutine name itself. -/
theorem c6_theorem (st : ModuleState) (line n : String) (rest pre post : List String)
    (l : String)
    (hacc : subroutine_line_accepted line = true)
    (hname : extracted_subroutine_name line = some n)
    (ht : strStartsWith (pyLower n) "test_" = true)
    (hrest : rest = pre ++ l :: post)
    (hpre : ∀ x ∈ pre, pyStrip x = "")
    (hl : pyStrip l ≠ "") :
    parse_subroutine st rest line =
      some ({ st with subroutines := st.subroutines ++
          [⟨n, if '!' ∈ l.toList
               then pyStrip (String.mk ((l.toList.dropWhile (fun c => c != '!')).tail))
               else n⟩] }, post) := by
  have hdw : rest.dropWhile (fun x => pyStrip x == "") = l :: post := by
    rw [hrest, List.dropWhile_append_of_pos (by intro a ha; simp [hpre a ha]),
      List.dropWhile_cons_of_neg (by simp [hl])]
  have hd : test_case_description n rest =
      some (if '!' ∈ l.toList
        then pyStrip (String.mk ((l.toList.dropWhile (fun c => c != '!')).tail))
        else n) := by
    unfold test_case_description
    rw [hdw]
    show some (match strFind l "!" with
      | some p => pyStrip (String.mk (l.toList.drop (p + 1)))
      | none => n) = _
    rw [description_ite]
  simp only [parse_subroutine, hacc, if_true, hname, subroutine_type_of_test n ht, hd, hdw,
    List.tail_cons]

/-- Witness for C6: blank lines are skipped and the inline comment becomes
the description. -/
theorem c6_witness :
    parse_subroutine ⟨false, false, []⟩ ["   ", "y = 1 ! first check"]
        "subroutine test_beta" =
      some (⟨false, false, [⟨"test_beta", "first check"⟩]⟩, []) := by
  exact (c6_theorem ⟨false, false, []⟩ "subroutine test_beta" "test_beta"
    ["   ", "y = 1 ! first check"] ["   "] [] "y = 1 ! first check"
    (by decide) (by decide) (by decide) (by decide) (by decide) (by decide)).trans
    (by decide)

/-- Claim C8: failure messages are empty whenever the success flag is
true; with the flag false, the scan finds the first line containing the
block header and collects every following line, trimmed, up to (and
excluding) the first line containing the end marker, ignoring everything
after it — only the first block is honored. -/
theorem c8_theorem (lines pre body post : List String) (hl el : String) :
    get_messages true lines = [] ∧
    (lines = pre ++ hl :: (body ++ el :: post) →
      (∀ l ∈ pre, strContains l msgsHeader = false) →
      strContains hl msgsHeader = true →
      (∀ l ∈ body, strContains l msgsEnd = false) →
      strContains el msgsEnd = true →
      get_messages false lines = body.map pyStrip) := by
  constructor
  · rfl
  · intro hls hpre hhl hb he
    rw [hls]
    show get_messagesScan (pre ++ hl :: (body ++ el :: post)) = body.map pyStrip
    rw [get_messagesScan_skip pre hpre]
    show (if strContains hl msgsHeader = true then get_messagesAux (body ++ el :: post)
      else _) = body.map pyStrip
    rw [hhl]
    simp only [if_true]
    exact get_messagesAux_block body el post hb he

/-- Witness for C8 at the spec's failure scenario, with a second block
after the end marker that is ignored. -/
theorem c8_witness :
    get_messages true ["Failed assertion messages:", "msgA"] = [] ∧
    get_messages false ["no success here", "Failed assertion messages:", "msgA", "msgB",
      "end of failed assertion messages.", "Failed assertion messages:", "zzz"] =
      ["msgA", "msgB"] := by
  constructor
  · exact ( c8_theorem ["Failed assertion messages:", "msgA"] [] [] [] "" "").1
  · exact (( c8_theorem ["no success here", "Failed assertion messages:", "msgA", "msgB",
      "end of failed assertion messages.", "Failed assertion messages:", "zzz"]
      ["no success here"] ["msgA", "msgB"]
      ["Failed assertion messages:", "zzz"] "Failed assertion messages:"
      "end of failed assertion messages.").2
      (by decide) (by decide) (by decide) (by decide) (by decide)).trans (by decide)

/-- Claim C7: a summary line splits on whitespace and reads the integer
tokens on either side of the last standalone `/` token as
(success, total); a unique line containing the asserts header together
with the immediately following line populate the assert and case
counters; when no header line occurs, both counters remain at their
zero-initialized state. -/
theorem c7_theorem (line : String) (A B : List String) (tx ty : String) (x y : Int)
    (lines pre post : List String) (hl nl : String) (a1 a2 c1 c2 : Int) :
    (pySplit line = A ++ tx :: "/" :: ty :: B → "/" ∉ ty :: B →
      pyInt tx = some x → pyInt ty = some y →
      parse_summary_line line = some (x, y)) ∧
    (lines = pre ++ hl :: nl :: post →
      (∀ l ∈ pre, strContains l statsHeader = false) →
      strContains hl statsHeader = true →
      strContains nl statsHeader = false →
      (∀ l ∈ post, strContains l statsHeader = false) →
      parse_summary_line hl = some (a1, a2) →
      parse_summary_line nl = some (c1, c2) →
      get_statistics lines = some (⟨a1, a2⟩, ⟨c1, c2⟩)) ∧
    ((∀ l ∈ lines, strContains l statsHeader = false) →
      get_statistics lines = some (⟨0, 0⟩, ⟨0, 0⟩)) := by
  refine ⟨?_, ?_, ?_⟩
  · intro hsp hnot hix hiy
    have hnotB : "/" ∉ B := fun hm => hnot (by simp [hm])
    have hnotty : ¬(ty = "/") := fun hm => hnot (by simp [hm])
    have hrev : revIndex (pySplit line) "/" = some (B.length + 1) := by
      rw [hsp]
      unfold revIndex
      have hshape : (A ++ tx :: "/" :: ty :: B).reverse =
          (B.reverse ++ [ty]) ++ "/" :: (tx :: A.reverse) := by
        simp
      rw [hshape, indexOfAux_append]
      · simp
      · intro hmem
        rcases List.mem_append.mp hmem with h1 | h1
        · exact hnotB (List.mem_reverse.mp h1)
        · have : ("/" : String) = ty := by simpa using h1
          exact hnotty this.symm
    have hlen : (pySplit line).length = A.length + B.length + 3 := by
      rw [hsp]; simp; omega
    have hg1 : pyGet (pySplit line) (-((((B.length + 1 : Nat) : Int)) + 1) - 1) = some tx := by
      have e1 : -((((B.length + 1 : Nat) : Int)) + 1) - 1 = -(((B.length + 3 : Nat) : Int)) := by
        push_cast; ring
      rw [e1, pyGet_negNat _ _ (by omega) (by omega)]
      have e2 : (pySplit line).length - (B.length + 3) = A.length := by omega
      rw [e2, hsp, List.getElem?_append_right (Nat.le_refl A.length)]
      simp
    have hg2 : pyGet (pySplit line) (-((((B.length + 1 : Nat) : Int)) + 1) + 1) = some ty := by
      have e1 : -((((B.length + 1 : Nat) : Int)) + 1) + 1 = -(((B.length + 1 : Nat) : Int)) := by
        push_cast; ring
      rw [e1, pyGet_negNat _ _ (by omega) (by omega)]
      have e2 : (pySplit line).length - (B.length + 1) = A.length + 2 := by omega
      rw [e2, hsp, List.getElem?_append_right (by omega)]
      have e3 : A.length + 2 - A.length = 2 := by omega
      rw [e3]
      simp
    show (match revIndex (pySplit line) "/" with
      | none => none
      | some r =>
        match pyGet (pySplit line) (-((r : Int) + 1) - 1),
            pyGet (pySplit line) (-((r : Int) + 1) + 1) with
        | some a, some b =>
          match pyInt a, pyInt b with
          | some xa, some xb => some (xa, xb)
          | _, _ => none
        | _, _ => none) = some (x, y)
    rw [hrev]
    show (match pyGet (pySplit line) (-(((B.length + 1 : Nat) : Int) + 1) - 1),
        pyGet (pySplit line) (-(((B.length + 1 : Nat) : Int) + 1) + 1) with
      | some a, some b =>
        match pyInt a, pyInt b with
        | some xa, some xb => some (xa, xb)
        | _, _ => none
      | _, _ => none) = some (x, y)
    rw [hg1, hg2]
    show (match pyInt tx, pyInt ty with
      | some xa, some xb => some (xa, xb)
      | _, _ => none) = some (x, y)
    rw [hix, hiy]
  · intro hls hpre hhl hnl hpost hpa hpc
    rw [hls]
    show get_statisticsAux (pre ++ hl :: nl :: post) (⟨0, 0⟩, ⟨0, 0⟩) = _
    rw [get_statisticsAux_skip pre hpre]
    show (if strContains hl statsHeader = true then
        match parse_summary_line hl, parse_summary_line nl with
        | some a, some c => get_statisticsAux (nl :: post) (⟨a.1, a.2⟩, ⟨c.1, c.2⟩)
        | _, _ => none
      else get_statisticsAux (nl :: post) (⟨0, 0⟩, ⟨0, 0⟩)) = _
    rw [hhl]
    simp only [if_true]
    rw [hpa, hpc]
    exact get_statisticsAux_no_header (nl :: post) (⟨a1, a2⟩, ⟨c1, c2⟩) (by
      intro z hz
      rcases List.mem_cons.mp hz with h | h
      · rw [h]; exact hnl
      · exact hpost z h)
  · intro h
    exact get_statisticsAux_no_header lines _ h

/-- Witness for C7 at the spec's result-parsing scenario. -/
theorem c7_witness :
    parse_summary_line "Successful asserts / total asserts : 9 / 10" = some (9, 10) ∧
    get_statistics ["x SUCCESSFUL! y", "Successful asserts / total asserts : 9 / 10",
      "Successful cases / total cases : 3 / 4"] = some (⟨9, 10⟩, ⟨3, 4⟩) ∧
    get_statistics ["no stats here"] = some (⟨0, 0⟩, ⟨0, 0⟩) := by
  refine ⟨?_, ?_, ?_⟩
  · exact ( c7_theorem "Successful asserts / total asserts : 9 / 10"
      ["Successful", "asserts", "/", "total", "asserts", ":"] [] "9" "10" 9 10
      [] [] [] "" "" 0 0 0 0).1 (by decide) (by decide) (by decide) (by decide)
  · exact ( c7_theorem "" [] [] "" "" 0 0
      ["x SUCCESSFUL! y", "Successful asserts / total asserts : 9 / 10",
        "Successful cases / total cases : 3 / 4"]
      ["x SUCCESSFUL! y"] []
      "Successful asserts / total asserts : 9 / 10"
      "Successful cases / total cases : 3 / 4" 9 10 3 4).2.1
      (by decide) (by decide) (by decide) (by decide) (by decide) (by decide) (by decide)
  · exact ( c7_theorem "" [] [] "" "" 0 0 ["no stats here"] [] [] "" "" 0 0 0 0).2.2
      (by decide)
